import Mathlib

/-!
Verification development for the market-intel-agent repository.

The development shallowly embeds the mission-orchestration core of the
repository: the resilient fetch subsystem (`services/scraper_service.py`),
the tool-execution gateway and mission orchestrator
(`services/agent_service.py`), and the prompt templates
(`core/prompts.py`).  External capabilities (the LLM, the web-search
provider, the Notion / e-mail / document-store clients and the SQL
session) are modelled as oracles supplied through environment records;
their possible failures are modelled with `Except`.  Wall-clock time is
modelled abstractly: each external layer of the scraper is given a
duration in whole seconds, with a dedicated constructor for a layer that
hangs forever, and `asyncio.wait_for` is embedded as a function that caps
the elapsed time of a computation at its timeout.
-/

/-- A timed computation: either it completes with a value `a` after `t`
seconds, or it hangs forever. Models the behaviour of one `await`ed
Python coroutine (or synchronous call) as observed by its caller. -/
inductive Timed (α : Type) where
  | done (a : α) (t : Nat)
  | hang
deriving DecidableEq, Repr

/-- A Python exception, as relevant to `scraper_service.py`: either a
`playwright` `TimeoutError` (caught separately by the scraper) or any
other `Exception`, each carrying its `str(e)` message. -/
inductive PyExc where
  | pwTimeout (msg : String)
  | exn (msg : String)
deriving DecidableEq, Repr

/-- `str(e)` of an exception. -/
def PyExc.message : PyExc → String
  | .pwTimeout m => m
  | .exn m => m

deriving instance DecidableEq for Except

/-- A timed computation that may additionally raise a Python exception. -/
abbrev TE (α : Type) := Timed (Except PyExc α)

/-- Add previously elapsed seconds to a timed computation's total. -/
def Timed.addT (prior : Nat) : Timed α → Timed α
  | .done a t => .done a (prior + t)
  | .hang => .hang

/-- Sequencing of timed fallible computations: durations add, an
exception or a hang of the first part short-circuits the second. -/
def teBind (x : TE α) (f : α → TE β) : TE β :=
  match x with
  | .hang => .hang
  | .done (.error e) t => .done (.error e) t
  | .done (.ok a) t => (f a).addT t

/-- Outcome of `asyncio.wait_for`: the value, an exception raised by the
awaited coroutine, or `asyncio.TimeoutError`. -/
inductive WFO (α : Type) where
  | ok (a : α)
  | exc (e : PyExc)
  | timedOut
deriving DecidableEq, Repr

/-- `asyncio.wait_for(x, timeout=T)`: if `x` completes (with a value or
an exception) within `T` seconds that outcome is passed through;
otherwise the call is cancelled and `TimeoutError` surfaces after
exactly `T` seconds.  The second component is the elapsed time. -/
def waitFor (T : Nat) : TE α → WFO α × Nat
  | .done (.ok a) d => if d ≤ T then (.ok a, d) else (.timedOut, T)
  | .done (.error e) d => if d ≤ T then (.exc e, d) else (.timedOut, T)
  | .hang => (.timedOut, T)

/-- `try: body finally: cleanup` where the cleanup is a plain `await`:
an exception raised by the cleanup replaces the body's outcome (Python
semantics), a hanging cleanup hangs the whole block. -/
def finallyReplace (body : TE α) (cleanup : TE Unit) : TE α :=
  match body with
  | .hang => .hang
  | .done r t =>
    match cleanup with
    | .hang => .hang
    | .done (.ok _) t2 => .done r (t + t2)
    | .done (.error e2) t2 => .done (.error e2) (t + t2)

/-- `try: body finally: (try: cleanup except: pass)`: the cleanup's
exceptions are swallowed, but its duration still counts and a hanging
cleanup still hangs the block. -/
def finallySwallow (body : TE α) (cleanup : TE Unit) : TE α :=
  match body with
  | .hang => .hang
  | .done r t =>
    match cleanup with
    | .hang => .hang
    | .done _ t2 => .done r (t + t2)

/-! ## Python string primitives used by the scraper and the gateway -/

/-- The characters matched by `\s` in an ASCII regex and stripped by
`str.strip()` (the model restricts itself to ASCII whitespace). -/
def isPySpace (c : Char) : Bool :=
  c == ' ' || c == '\t' || c == '\n' || c == '\r' || c == '\x0b' || c == '\x0c'

/-- Python's `needle in hay` substring test, on character lists. -/
def listContainsSub (needle : List Char) : List Char → Bool
  | [] => needle.isEmpty
  | c :: t => needle.isPrefixOf (c :: t) || listContainsSub needle t

/-- Python's `needle in hay` substring test, on strings. -/
def pyIn (needle hay : String) : Bool :=
  listContainsSub needle.data hay.data

/-- `str.lower()` (ASCII case folding, character by character). -/
def pyLower (s : String) : String :=
  String.mk (s.data.map Char.toLower)

/-- `str.strip()` on a character list. -/
def pyStripList (l : List Char) : List Char :=
  ((l.dropWhile isPySpace).reverse.dropWhile isPySpace).reverse

/-- `str.strip()` on a string. -/
def pyStrip (s : String) : String :=
  String.mk (pyStripList s.data)

/-- The characters of `run` that follow its last newline. -/
def afterLastNewline (run : List Char) : List Char :=
  (run.reverse.takeWhile (fun c => c != '\n')).reverse

/-- `re.sub(r'\n\s*\n', '\n', s)`: at each newline, if the maximal
whitespace run that follows contains another newline, the whole stretch
from the first newline up to the last newline of the run is replaced by
a single newline, and scanning resumes after it (greedy, non
overlapping, left to right). -/
def subNewlines : List Char → List Char
  | [] => []
  | c :: rest =>
    if c = '\n' then
      let run := rest.takeWhile isPySpace
      if '\n' ∈ run then
        '\n' :: subNewlines (afterLastNewline run ++ rest.dropWhile isPySpace)
      else
        c :: subNewlines rest
    else
      c :: subNewlines rest
termination_by l => l.length
decreasing_by
  · simp only [List.length_cons, List.length_append]
    have h1 : (afterLastNewline (t.takeWhile isPySpace)).length ≤
        (t.takeWhile isPySpace).length := by
      unfold afterLastNewline
      have := ( List.takeWhile_prefix
        (l := (t.takeWhile isPySpace).reverse)
        (fun c => c != '\n')).length_le
      simpa using this
    have h2 : (t.takeWhile isPySpace).length +
        (t.dropWhile isPySpace).length = t.length := by
      rw [← List.length_append, List.takeWhile_append_dropWhile]
    omega
  · simp
  · simp

/-- `re.sub(r'\n\s*\n', '\n', raw_text).strip()` from
`_scrape_web_internal`. -/
def pyClean (s : String) : String :=
  String.mk (pyStripList (subNewlines s.data))

/-! ## Resilient fetch subsystem (`services/scraper_service.py`)

Each external layer of `_scrape_web_internal` (playwright start-up,
browser launch, context / page creation, stealth patching, the two
navigation strategies, mouse wheel, text extraction, document ingestion
and the three cleanup calls) is an oracle of type `TE _`: it may
complete with a value, raise, or hang, and it consumes wall-clock
seconds.  `settings.SCRAPER_TIMEOUT` is the configured budget. -/

structure ScrapeEnv where
  scraperTimeout : Nat
  pwInit : TE Unit
  pwExit : TE Unit
  launch : TE Unit
  newContext : TE Unit
  newPage : TE Unit
  stealth : TE Unit
  gotoDom : TE Unit
  gotoCommit : TE Unit
  wheel : TE Unit
  innerText : TE String
  ingest : TE Unit
  closeCtx : TE Unit
  closeBrowser : TE Unit

/-- `timeout_seconds = min(settings.SCRAPER_TIMEOUT, 30)`. -/
def timeoutSeconds (env : ScrapeEnv) : Nat :=
  min env.scraperTimeout 30

/-- The fixed message returned when playwright initialization times out. -/
def initTimeoutMsg : String :=
  "Error: Browser initialization timed out. Playwright may not be properly configured in this environment."

/-- The message returned when playwright initialization raises. -/
def initFailMsg (m : String) : String :=
  "Error: Failed to initialize browser - " ++ m

/-- The fixed message returned when the browser launch times out. -/
def launchTimeoutMsg : String :=
  "Error: Browser launch timed out. The environment may not have sufficient resources."

/-- The message returned when the browser launch raises. -/
def launchFailMsg (m : String) : String :=
  "Error: Browser launch failed - " ++ m

/-- The message returned when both navigation strategies time out. -/
def navTimeoutMsg (t : Nat) : String :=
  "Error: Page navigation timed out after " ++ toString t ++ " seconds. The site may be blocking automated access or is too slow."

/-- The message returned when the page yields under 100 characters. -/
def littleContentMsg (n : Nat) : String :=
  "Error: Page loaded but very little content extracted (" ++ toString n ++ " chars). Site may be blocking automated access."

/-- The message returned when a playwright timeout escapes the page
block. -/
def reqTimeoutMsg (t : Nat) : String :=
  "Error: Request timed out after " ++ toString t ++ " seconds. The site may be blocking automated access."

/-- The message returned when the whole scrape exceeds the budget. -/
def scrapeTimeoutMsg (t : Nat) : String :=
  "Error: Scrape operation timed out after " ++ toString t ++ " seconds. The site may be blocking automated access or is too slow."

/-- The `stealth_async` call wrapped in `asyncio.wait_for(..., 5)`: a
timeout is logged and execution continues; any other exception
propagates. -/
def stealthStep (env : ScrapeEnv) : TE Unit :=
  match waitFor 5 env.stealth with
  | (WFO.ok _, d) => .done (.ok ()) d
  | (WFO.timedOut, d) => .done (.ok ()) d
  | (WFO.exc e, d) => .done (.error e) d

/-- The two-tier navigation: `page.goto(..., "domcontentloaded")`, and on
a playwright timeout a retry with `page.goto(..., "commit")`.  Returns
`some ()` when navigation succeeded and `none` when both strategies
timed out (the caller then returns `navTimeoutMsg`); other exceptions
propagate. -/
def gotoStep (env : ScrapeEnv) : TE (Option Unit) :=
  match env.gotoDom with
  | .hang => .hang
  | .done (.ok _) t => .done (.ok (some ())) t
  | .done (.error (.exn m)) t => .done (.error (.exn m)) t
  | .done (.error (.pwTimeout _)) t =>
    ((match env.gotoCommit with
     | .hang => .hang
     | .done (.ok _) t2 => .done (.ok (some ())) t2
     | .done (.error (.pwTimeout _)) t2 => .done (.ok none) t2
     | .done (.error (.exn m)) t2 => .done (.error (.exn m)) t2 : TE (Option Unit))).addT t

/-- The raw body text the page would yield, read off the environment
(the value carried by a successful `page.inner_text("body")`). -/
def rawOf (env : ScrapeEnv) : String :=
  match env.innerText with
  | .done (.ok s) _ => s
  | _ => ""

/-- The innermost `try` block of `_scrape_web_internal`: page creation,
stealth, navigation, the two 1-second settle sleeps around the mouse
wheel, text extraction, the under-100-characters quality check and the
best-effort ingestion, returning the cleaned text on success. -/
def scrapePage (env : ScrapeEnv) : TE String :=
  teBind env.newPage fun _ =>
  teBind (stealthStep env) fun _ =>
  teBind (gotoStep env) fun nav =>
  match nav with
  | none => .done (.ok (navTimeoutMsg (timeoutSeconds env))) 0
  | some _ =>
    teBind (.done (.ok ()) 1) fun _ =>
    teBind env.wheel fun _ =>
    teBind (.done (.ok ()) 1) fun _ =>
    teBind env.innerText fun raw =>
    let clean := pyClean raw
    if clean.length < 100 then
      .done (.ok (littleContentMsg clean.length)) 0
    else
      teBind env.ingest fun _ => .done (.ok clean) 0

/-- The middle `try` block: context creation, then the page block with
`finally: await context.close()`. -/
def contextBlock (env : ScrapeEnv) : TE String :=
  teBind env.newContext fun _ =>
  finallyReplace (scrapePage env) env.closeCtx

/-- The middle `try` block together with its two `except` handlers:
a `PlaywrightTimeoutError` becomes `reqTimeoutMsg`, any other exception
becomes `"Error: " ++ str(e)`. -/
def contextBlockHandled (env : ScrapeEnv) : TE String :=
  match contextBlock env with
  | .hang => .hang
  | .done (.ok s) t => .done (.ok s) t
  | .done (.error (.pwTimeout _)) t =>
    .done (.ok (reqTimeoutMsg (timeoutSeconds env))) t
  | .done (.error (.exn m)) t => .done (.ok ("Error: " ++ m)) t

/-- Everything after a successful playwright initialization: the browser
launch under `asyncio.wait_for(..., 15)` (on timeout or failure the
playwright manager is exited *without* protection, so an exception there
propagates), then the handled context block with
`finally: try: await browser.close() except: pass`. -/
def afterInit (env : ScrapeEnv) : TE String :=
  match waitFor 15 env.launch with
  | (WFO.ok _, d) =>
    (finallySwallow (contextBlockHandled env) env.closeBrowser).addT d
  | (WFO.timedOut, d) =>
    (teBind env.pwExit fun _ => .done (.ok launchTimeoutMsg) 0).addT d
  | (WFO.exc e, d) =>
    (teBind env.pwExit fun _ => .done (.ok (launchFailMsg e.message)) 0).addT d

/-- `_scrape_web_internal`: playwright initialization under
`asyncio.wait_for(..., 10)` (timeout and failure are converted to
in-band `"Error:"` strings), then `afterInit` wrapped in the outer
`finally: try: await playwright_manager.__aexit__() except: pass`. -/
def scrape_web_internal (env : ScrapeEnv) : TE String :=
  match waitFor 10 env.pwInit with
  | (WFO.timedOut, d) => .done (.ok initTimeoutMsg) d
  | (WFO.exc e, d) => .done (.ok (initFailMsg e.message)) d
  | (WFO.ok _, d) => (finallySwallow (afterInit env) env.pwExit).addT d

/-- `scrape_web`: the whole internal scraper under
`asyncio.wait_for(..., timeout_seconds)`; a timeout becomes
`scrapeTimeoutMsg` and any exception becomes `"Error: " ++ str(e)`.
The result is a plain timed string: the function never raises. -/
def scrape_web (env : ScrapeEnv) : Timed String :=
  match waitFor (timeoutSeconds env) (scrape_web_internal env) with
  | (WFO.ok s, d) => .done s d
  | (WFO.timedOut, d) => .done (scrapeTimeoutMsg (timeoutSeconds env)) d
  | (WFO.exc e, d) => .done ("Error: " ++ e.message) d

/-! ## Data model of the gateway and orchestrator
(`services/agent_service.py`) -/

/-- The argument mapping of a plan step, covering the keys the gateway
reads (`url`, `link`, `query`, `title`, `content`); a `none` field is an
absent key. -/
structure Args where
  url : Option String := none
  link : Option String := none
  query : Option String := none
  title : Option String := none
  content : Option String := none
deriving DecidableEq, Repr

/-- One plan step as consumed by `process_mission`: `s.get('tool')` and
`step['args']`. -/
structure Step where
  tool : Option String := none
  args : Args := {}
deriving DecidableEq, Repr

/-- An observable external action performed by the agent service, in
order of occurrence: a gateway dispatch, a scrape, a web search, a
Notion page creation, an e-mail dispatch, an LLM generation, a
document-store ingestion, or a relational audit-row insert. -/
inductive Effect where
  | toolInvoke (tool : String) (args : Args)
  | scrapeCall (url : String) (conversationId : Nat)
  | searchCall (query : String)
  | notionCall (title content : String)
  | emailCall (recipient subject content : String)
  | llmCall (prompt : String)
  | ingestCall (title content : String) (conversationId : Nat)
  | dbInsert (conversationId : Nat) (query response status : String)
deriving DecidableEq, Repr

/-- One entry of the mission trace (`logs`): gather steps record
`{"tool": t, "status": "Gathered"}`, dissemination steps record
`{"tool": t, "result": r}`. -/
inductive TraceEntry where
  | gathered (tool : String)
  | dissem (tool : String) (result : String)
deriving DecidableEq, Repr

/-- The dictionary returned by `process_mission`. -/
structure MissionRecord where
  status : String
  missionId : Nat
  report : String
  trace : List TraceEntry
deriving DecidableEq, Repr

/-- Oracles for the capabilities the agent service calls out to.
`scrape`, `search` and `llmGenerate` abstract the in-repository
`scrape_web`, `SearchService.search` and the LLM client as total
string-returning calls (both `scrape_web` and `search` catch all their
own exceptions in the source).  The remaining fields are modelled from
the spec because their source files are not part of `src/`:
`validateUrl` models `core.validators.validate_url` (§4.2: validation
returns a verdict and a message), `notionCreate`, `emailSend` and
`ingest` model the archive / notify / document-store capabilities (§6:
success flag plus text, exceptions possible), `jsonLoads` models the
standard library's `json.loads` restricted to plan arrays (`none` is a
parse failure), and `todayDate` / `dateStamp` model the two
`datetime.now()` renderings. -/
structure AgentEnv where
  scrape : String → Nat → String
  search : String → String
  llmGenerate : String → String
  validateUrl : String → Bool × String
  notionCreate : String → String → Except String Bool
  emailSend : String → String → String → Except String Bool
  ingest : String → String → Nat → Except String Unit
  jsonLoads : String → Option (List Step)
  hasDb : Bool
  emailUser : String
  todayDate : String
  dateStamp : String

/-! ## Prompt templates (`core/prompts.py`), with `str.format` applied -/

/-- `CLOUD_AGENT_PROMPT` up to the `{user_input}` placeholder. -/
def planPromptPre : String :=
  "\nYou are an AI Mission Commander. You must generate a multi-step execution plan in JSON.\nOutput ONLY a valid JSON list of objects. No preamble.\n\nTOOLS AVAILABLE:\n- web_research: Scrapes a URL. Required arg: \x7b\"url\": \"string\"\x7d\n- web_search: General search. Required arg: \x7b\"query\": \"string\"\x7d\n- save_to_notion: Archives findings. Required args: \x7b\"title\": \"string\", \"content\": \"string\"\x7d\n- dispatch_email: Sends results. Required args: \x7b\"content\": \"string\"\x7d\n\nCRITICAL RULES:\n1. DATA PERSISTENCE: The \x27content\x27 arguments for save_to_notion and dispatch_email MUST NOT be empty. You must populate them with a placeholder instruction like \"Synthesize all H100 pricing found into a report here.\"\n2. STRATEGY: Always follow a specific site scrape with a general web_search as a Plan B.\n3. CONTEXT: If the mission is about pricing, ensure the plan ends with archiving and emailing those specific numbers.\n\nJSON FORMAT EXAMPLE:\n[\n  \x7b \n    \"step\": 1, \n    \"tool\": \"web_research\", \n    \"args\": \x7b\"url\": \"https://lambdalabs.com/service/gpu-cloud\"\x7d, \n    \"thought\": \"Directly checking the GPU cloud subpage for H100 pricing.\" \n  \x7d,\n  \x7b \n    \"step\": 2, \n    \"tool\": \"save_to_notion\", \n    \"args\": \x7b\n        \"title\": \"Lambda Labs H100 Pricing 2026\", \n        \"content\": \"Detailed breakdown of hourly H100 rates and availability found during research.\"\n    \x7d, \n    \"thought\": \"Saving the specific prices found in Step 1 to the database.\" \n  \x7d\n]\n\nMission: "

/-- `CLOUD_AGENT_PROMPT.format(user_input=user_input)`. -/
def planPrompt (user_input : String) : String :=
  planPromptPre ++ user_input ++ "\n"

/-- `REPORT_SYNTHESIS_PROMPT` up to the `{intel_pool}` placeholder. -/
def synthPromptPre : String :=
  "\nYou are a Senior Market Analyst. Use the DATA POOL to create a report.\nIf the DATA POOL contains specific prices (e.g., $2.49/hr), you MUST use those.\nIf no prices are found, clearly state \"DATA NOT FOUND\" rather than hallucinating.\n\nDATA POOL:\n"

/-- `REPORT_SYNTHESIS_PROMPT` after the `{intel_pool}` placeholder. -/
def synthPromptPost : String :=
  "\n\nREPORT FORMAT:\n# 📊 Market Intelligence Report\n## 💰 Confirmed Pricing\n(Insert table here)\n"

/-- `REPORT_SYNTHESIS_PROMPT.format(intel_pool=intel_pool)`. -/
def synthPrompt (intel_pool : String) : String :=
  synthPromptPre ++ intel_pool ++ synthPromptPost

/-! ## Integrity gate and tool execution gateway -/

/-- The marker phrases rejected by `_integrity_check`. -/
def forbiddenMarkers : List String :=
  ["placeholder", "insert here", "no data found", "error"]

/-- The sentinel returned when both candidate and fallback are unusable. -/
def noDataSentinel : String :=
  "Mission failed: No meaningful data gathered."

/-- `AgentService._integrity_check`: reject empty, under-50-character or
marker-containing content, substituting the current intelligence pool,
or the sentinel when that pool is empty. -/
def integrity_check (current_intel content : String) : String :=
  if content = "" || content.length < 50
      || forbiddenMarkers.any (fun p => pyIn p (pyLower content)) then
    if current_intel = "" then noDataSentinel else current_intel
  else content

/-- The block-indicator phrases of the gateway's fetch fallback. -/
def blockMarkers : List String :=
  ["cookie", "blocked", "verify", "robot"]

/-- Python's `a or b` on two optional strings (an empty string is
falsy). -/
def pyOrStr (a b : Option String) : Option String :=
  match a with
  | some s => if s = "" then b else some s
  | none => b

/-- The body of `execute_tool`'s `try` block: dispatch on the tool name,
producing the returned text (or the exception that escapes a capability)
together with the external actions performed.  The branches mirror the
source's order: `web_research` with URL extraction, validation, scrape
and the block/short fallback to search; `web_search`; `save_to_notion`
and `dispatch_email` through the integrity gate; unknown tools. -/
def execBody (env : AgentEnv) (current_intel : String) (tool : String)
    (args : Args) (conversation_id : Nat) :
    Except String String × List Effect :=
  if tool = "web_research" then
    match pyOrStr args.url args.link with
    | none => (.ok "Error: No URL provided for web_research", [])
    | some u =>
      if u = "" then (.ok "Error: No URL provided for web_research", [])
      else
        let url_str := pyStrip u
        let v := env.validateUrl url_str
        if v.1 = false then (.ok ("Error: Invalid URL - " ++ v.2), [])
        else
          let result := env.scrape url_str conversation_id
          let fallbackQuery := "Latest info from " ++ u
          if blockMarkers.any (fun m => pyIn m (pyLower result))
              || result.length < 500 then
            (.ok (env.search fallbackQuery),
             [Effect.scrapeCall url_str conversation_id,
              Effect.searchCall fallbackQuery])
          else
            (.ok result, [Effect.scrapeCall url_str conversation_id])
  else if tool = "web_search" then
    let query :=
      match args.query with
      | some s => if s = "" then "Market Intelligence Query" else s
      | none => "Market Intelligence Query"
    (.ok (env.search query), [Effect.searchCall query])
  else if tool = "save_to_notion" then
    let title := args.title.getD ("Report " ++ env.todayDate)
    let content := integrity_check current_intel (args.content.getD "")
    ((match env.notionCreate title content with
      | .ok b => .ok (if b then "✅ Notion OK" else "❌ Notion Error")
      | .error e => .error e),
     [Effect.notionCall title content])
  else if tool = "dispatch_email" then
    let content := integrity_check current_intel (args.content.getD "")
    let subject := "Agent Report: " ++ args.title.getD "Update"
    ((match env.emailSend env.emailUser subject content with
      | .ok b => .ok (if b then "✅ Email OK" else "❌ Email Error")
      | .error e => .error e),
     [Effect.emailCall env.emailUser subject content])
  else
    (.ok ("Error: Tool \x27" ++ tool ++ "\x27 not found."), [])

/-- `AgentService.execute_tool`: the `try` body under the catch-all
handler that converts any escaped exception into the in-band
`"Tool Failure: " ++ str(e)` result.  The gateway therefore always
returns a plain string. -/
def execute_tool (env : AgentEnv) (current_intel : String) (tool : String)
    (args : Args) (conversation_id : Nat) : String × List Effect :=
  let body := execBody env current_intel tool args conversation_id
  ((match body.1 with
    | .ok s => s
    | .error e => "Tool Failure: " ++ e),
   Effect.toolInvoke tool args :: body.2)

/-! ## Plan generation and the orchestration loop -/

/-- `re.search(r"(\[.*\])", raw, re.DOTALL)`: with a greedy dot that
matches newlines, the match — when it exists — spans from the first
`[` to the last `]` of the string; it exists when such a pair occurs in
that order. -/
def pyFindArray (s : String) : Option String :=
  let l := s.data
  match l.findIdx? (fun c => c == '['), l.reverse.findIdx? (fun c => c == ']') with
  | some i, some k =>
    let j := l.length - 1 - k
    if i < j then some (String.mk ((l.drop i).take (j - i + 1))) else none
  | _, _ => none

/-- `AgentService.generate_plan`: one LLM call, array-substring
extraction, JSON parse; both a missing array and a JSON parse failure
yield the empty plan. -/
def generate_plan (env : AgentEnv) (user_input : String) :
    List Step × List Effect :=
  let prompt := planPrompt user_input
  let raw := env.llmGenerate prompt
  let plan :=
    match pyFindArray raw with
    | none => []
    | some s => (env.jsonLoads s).getD []
  (plan, [Effect.llmCall prompt])

/-- `AgentService._persist_to_memory`: inside one `try` block, the
document-store ingestion and then — only if a session is bound — the
audit row insert; any exception is caught and only logged (a failing
commit therefore has no further observable action either). -/
def persist_to_memory (env : AgentEnv) (report : String)
    (conversation_id : Nat) : List Effect :=
  let title := "Report_" ++ toString conversation_id ++ "_" ++ env.dateStamp
  Effect.ingestCall title report conversation_id ::
    match env.ingest title report conversation_id with
    | .error _ => []
    | .ok _ =>
      if env.hasDb then
        [Effect.dbInsert conversation_id "Market Intelligence Mission"
          report "COMPLETED"]
      else []

/-- The gather-phase filter `s.get('tool') in ["web_research", "web_search"]`. -/
def isGatherStep (s : Step) : Bool :=
  s.tool == some "web_research" || s.tool == some "web_search"

/-- The dissemination-phase filter
`s.get('tool') in ["save_to_notion", "dispatch_email"]`. -/
def isDissemStep (s : Step) : Bool :=
  s.tool == some "save_to_notion" || s.tool == some "dispatch_email"

/-- The gather loop of `process_mission`: each step's result is appended
to the intelligence pool with the `\n---\n` separator and a `Gathered`
trace entry is recorded.  Returns the final pool, the trace and the
effects. -/
def gatherLoop (env : AgentEnv) (conversation_id : Nat) :
    List Step → String → String × List TraceEntry × List Effect
  | [], intel => (intel, [], [])
  | s :: rest, intel =>
    let t := s.tool.getD ""
    let r := execute_tool env intel t s.args conversation_id
    let intel2 := intel ++ "\n---\n" ++ r.1 ++ "\n"
    let rec2 := gatherLoop env conversation_id rest intel2
    (rec2.1, TraceEntry.gathered t :: rec2.2.1, r.2 ++ rec2.2.2)

/-- The dissemination loop of `process_mission`: each step's `content`
argument is overwritten with the report before dispatch, and the current
intelligence pool seen by the integrity gate is the report itself. -/
def dissemLoop (env : AgentEnv) (report : String) (conversation_id : Nat) :
    List Step → List TraceEntry × List Effect
  | [] => ([], [])
  | s :: rest =>
    let t := s.tool.getD ""
    let args2 := { s.args with content := some report }
    let r := execute_tool env report t args2 conversation_id
    let rec2 := dissemLoop env report conversation_id rest
    (TraceEntry.dissem t r.1 :: rec2.1, r.2 ++ rec2.2)

/-- `process_mission` after the plan is available: gather phase over the
gather-class steps, one synthesis call on the accumulated pool,
persistence, dissemination phase over the disseminate-class steps, and
the final record with status `"complete"`. -/
def runPlan (env : AgentEnv) (plan : List Step) (mission_id : Nat) :
    MissionRecord × List Effect :=
  let g := gatherLoop env mission_id (plan.filter isGatherStep) ""
  let pool := g.1
  let report := env.llmGenerate (synthPrompt pool)
  let fxPersist := persist_to_memory env report mission_id
  let d := dissemLoop env report mission_id (plan.filter isDissemStep)
  ({ status := "complete", missionId := mission_id, report := report,
     trace := g.2.1 ++ d.1 },
   g.2.2 ++ Effect.llmCall (synthPrompt pool) :: (fxPersist ++ d.2))

/-- `mission_id = conversation_id or 999` (`0` and `None` are falsy). -/
def missionIdOf : Option Nat → Nat
  | none => 999
  | some c => if c = 0 then 999 else c

/-- `AgentService.process_mission`: plan generation followed by
`runPlan`. -/
def process_mission (env : AgentEnv) (user_input : String)
    (conversation_id : Option Nat) : MissionRecord × List Effect :=
  let mission_id := missionIdOf conversation_id
  let p := generate_plan env user_input
  let r := runPlan env p.1 mission_id
  (r.1, p.2 ++ r.2)

/-! ## Helper notions for the theorems -/

/-- A string that signals a failure in-band: it begins with `"Error:"`. -/
def ErrorTagged (s : String) : Prop :=
  "Error:".data <+: s.data

lemma errorTagged_append {s : String} (m : String) (h : ErrorTagged s) :
    ErrorTagged (s ++ m) := by
  unfold ErrorTagged at *
  rw [String.data_append]
  exact h.trans (List.prefix_append _ _)

lemma errorTagged_append2 {s : String} (m m2 : String) (h : ErrorTagged s) :
    ErrorTagged (s ++ m ++ m2) :=
  errorTagged_append m2 (errorTagged_append m h)

/-- C4: the integrity gate returns the candidate unchanged exactly on
the accepting branch — candidate non-empty, at least 50 characters and
free of every case-insensitive marker phrase — and otherwise returns
the fallback intelligence pool, or the fixed sentinel when that
fallback is empty. -/
theorem integrity_check_spec (current_intel content : String) :
    integrity_check current_intel content =
      if content ≠ "" ∧ 50 ≤ content.length ∧
          forbiddenMarkers.any (fun p => pyIn p (pyLower content)) = false then
        content
      else if current_intel ≠ "" then current_intel else noDataSentinel := by
  unfold integrity_check
  rcases Nat.lt_or_ge content.length 50 with h2 | h2
  · by_cases h1 : content = "" <;>
      simp [h1, h2, Nat.not_le.mpr h2]
  · have h2b : ¬ content.length < 50 := Nat.not_lt.mpr h2
    by_cases h1 : content = "" <;>
      by_cases h3 : forbiddenMarkers.any (fun p => pyIn p (pyLower content)) = true <;>
      simp [h1, h2, h2b, h3]

/-- C1: for every environment — in particular for every address,
whatever hangs or failures it induces in the engine layers, and every
configured budget — `scrape_web` completes within
`timeout_seconds = min(SCRAPER_TIMEOUT, 30)` wall-clock seconds, and
when the internal scraper hangs forever the result is the timed-out
message, delivered exactly at the budget. -/
theorem scrape_web_within_budget (env : ScrapeEnv) :
    (∃ s t, scrape_web env = .done s t ∧ t ≤ timeoutSeconds env) ∧
    (scrape_web_internal env = .hang →
      scrape_web env = .done (scrapeTimeoutMsg (timeoutSeconds env))
        (timeoutSeconds env)) := by
  constructor
  · cases h : scrape_web_internal env with
    | hang =>
      exact ⟨scrapeTimeoutMsg (timeoutSeconds env), timeoutSeconds env,
        by simp [scrape_web, waitFor, h], le_refl _⟩
    | done r d =>
      cases r with
      | ok s =>
        by_cases hd : d ≤ timeoutSeconds env
        · exact ⟨s, d, by simp [scrape_web, waitFor, h, hd], hd⟩
        · exact ⟨scrapeTimeoutMsg (timeoutSeconds env), timeoutSeconds env,
            by simp [scrape_web, waitFor, h, hd], le_refl _⟩
      | error e =>
        by_cases hd : d ≤ timeoutSeconds env
        · exact ⟨"Error: " ++ e.message, d,
            by simp [scrape_web, waitFor, h, hd], hd⟩
        · exact ⟨scrapeTimeoutMsg (timeoutSeconds env), timeoutSeconds env,
            by simp [scrape_web, waitFor, h, hd], le_refl _⟩
  · intro h
    simp [scrape_web, waitFor, h]

/-- An environment whose page-creation layer hangs forever. -/
def hangingScrapeEnv : ScrapeEnv where
  scraperTimeout := 20
  pwInit := .done (.ok ()) 0
  pwExit := .done (.ok ()) 0
  launch := .done (.ok ()) 0
  newContext := .done (.ok ()) 0
  newPage := .hang
  stealth := .done (.ok ()) 0
  gotoDom := .done (.ok ()) 0
  gotoCommit := .done (.ok ()) 0
  wheel := .done (.ok ()) 0
  innerText := .done (.ok "") 0
  ingest := .done (.ok ()) 0
  closeCtx := .done (.ok ()) 0
  closeBrowser := .done (.ok ()) 0

/-- Witness for C1: on a concrete environment whose page layer hangs
forever, the call still completes, within the 20-second budget, with
the timed-out message. -/
theorem scrape_web_within_budget_witness :
    (∃ s t, scrape_web hangingScrapeEnv = .done s t ∧
      t ≤ timeoutSeconds hangingScrapeEnv) ∧
    scrape_web hangingScrapeEnv =
      .done (scrapeTimeoutMsg (timeoutSeconds hangingScrapeEnv))
        (timeoutSeconds hangingScrapeEnv) :=
  ⟨(scrape_web_within_budget hangingScrapeEnv).1,
   (scrape_web_within_budget hangingScrapeEnv).2 rfl⟩

/-! ## In-band failure encoding of the scraper (C8) -/

/-- The property every value returned by the scraper satisfies: it is
either an in-band error string or the cleaned page text of at least 100
characters. -/
def ScrapeOk (env : ScrapeEnv) (s : String) : Prop :=
  ErrorTagged s ∨ (s = pyClean (rawOf env) ∧ 100 ≤ s.length)

lemma teBind_ok_inv {α β : Type} {x : TE α} {f : α → TE β} {b : β} {t : Nat}
    (h : teBind x f = .done (.ok b) t) :
    ∃ a t1 t2, x = .done (.ok a) t1 ∧ f a = .done (.ok b) t2 := by
  cases x with
  | hang => simp [teBind] at h
  | done r t0 =>
    cases r with
    | error e => simp [teBind] at h
    | ok a =>
      simp only [teBind] at h
      cases hf : f a with
      | hang => rw [hf] at h; simp [Timed.addT] at h
      | done r2 t2 =>
        rw [hf] at h
        simp only [Timed.addT] at h
        cases r2 with
        | error e => simp at h
        | ok b2 =>
          simp only [Timed.done.injEq, Except.ok.injEq] at h
          exact ⟨a, t0, t2, rfl, by rw [hf, h.1]⟩

lemma finallyReplace_ok_inv {α : Type} {body : TE α} {cleanup : TE Unit}
    {b : α} {t : Nat} (h : finallyReplace body cleanup = .done (.ok b) t) :
    ∃ tb, body = .done (.ok b) tb := by
  unfold finallyReplace at h
  cases body with
  | hang => cases h
  | done r tb =>
    cases cleanup with
    | hang => cases h
    | done rc tc =>
      cases rc with
      | error e2 => simp at h
      | ok u =>
        simp only [Timed.done.injEq] at h
        exact ⟨tb, by rw [h.1]⟩

lemma finallySwallow_done_inv {α : Type} {body : TE α} {cleanup : TE Unit}
    {r : Except PyExc α} {t : Nat}
    (h : finallySwallow body cleanup = .done r t) :
    ∃ tb, body = .done r tb := by
  unfold finallySwallow at h
  cases body with
  | hang => cases h
  | done r0 tb =>
    cases cleanup with
    | hang => cases h
    | done rc tc =>
      simp only [Timed.done.injEq] at h
      exact ⟨tb, by rw [h.1]⟩

lemma addT_done_inv {α : Type} {x : Timed α} {prior : Nat} {a : α} {t : Nat}
    (h : x.addT prior = .done a t) : ∃ t0, x = .done a t0 := by
  unfold Timed.addT at h
  cases x with
  | hang => cases h
  | done a0 t0 =>
    simp only [Timed.done.injEq] at h
    exact ⟨t0, by rw [h.1]⟩

lemma errorTagged_navTimeoutMsg (t : Nat) : ErrorTagged (navTimeoutMsg t) :=
  errorTagged_append2 _ _ (by unfold ErrorTagged; decide)

lemma errorTagged_littleContentMsg (n : Nat) :
    ErrorTagged (littleContentMsg n) :=
  errorTagged_append2 _ _ (by unfold ErrorTagged; decide)

lemma errorTagged_reqTimeoutMsg (t : Nat) : ErrorTagged (reqTimeoutMsg t) :=
  errorTagged_append2 _ _ (by unfold ErrorTagged; decide)

lemma errorTagged_scrapeTimeoutMsg (t : Nat) :
    ErrorTagged (scrapeTimeoutMsg t) :=
  errorTagged_append2 _ _ (by unfold ErrorTagged; decide)

lemma errorTagged_str (m : String) : ErrorTagged ("Error: " ++ m) :=
  errorTagged_append _ (by unfold ErrorTagged; decide)

lemma errorTagged_initFailMsg (m : String) : ErrorTagged (initFailMsg m) :=
  errorTagged_append _ (by unfold ErrorTagged; decide)

lemma errorTagged_launchFailMsg (m : String) : ErrorTagged (launchFailMsg m) :=
  errorTagged_append _ (by unfold ErrorTagged; decide)

lemma scrapePage_ok {env : ScrapeEnv} {s : String} {t : Nat}
    (h : scrapePage env = .done (.ok s) t) : ScrapeOk env s := by
  unfold scrapePage at h
  obtain ⟨_, _, _, hnp, h⟩ := teBind_ok_inv h
  obtain ⟨_, _, _, hst, h⟩ := teBind_ok_inv h
  obtain ⟨nav, _, _, hgoto, h⟩ := teBind_ok_inv h
  cases nav with
  | none =>
    simp only [Timed.done.injEq, Except.ok.injEq] at h
    exact Or.inl (h.1 ▸ errorTagged_navTimeoutMsg _)
  | some u =>
    obtain ⟨_, _, _, _, h⟩ := teBind_ok_inv h
    obtain ⟨_, _, _, hw, h⟩ := teBind_ok_inv h
    obtain ⟨_, _, _, _, h⟩ := teBind_ok_inv h
    obtain ⟨raw, _, _, hraw, h⟩ := teBind_ok_inv h
    by_cases hlen : (pyClean raw).length < 100
    · rw [if_pos hlen] at h
      simp only [Timed.done.injEq, Except.ok.injEq] at h
      exact Or.inl (h.1 ▸ errorTagged_littleContentMsg _)
    · rw [if_neg hlen] at h
      obtain ⟨_, _, _, hing, h⟩ := teBind_ok_inv h
      simp only [Timed.done.injEq, Except.ok.injEq] at h
      refine Or.inr ⟨?_, ?_⟩
      · rw [← h.1]
        unfold rawOf
        rw [hraw]
      · rw [← h.1]
        omega

lemma contextBlock_ok {env : ScrapeEnv} {s : String} {t : Nat}
    (h : contextBlock env = .done (.ok s) t) : ScrapeOk env s := by
  unfold contextBlock at h
  obtain ⟨_, _, _, hnc, h⟩ := teBind_ok_inv h
  obtain ⟨tb, h⟩ := finallyReplace_ok_inv h
  exact scrapePage_ok h

lemma contextBlockHandled_ok {env : ScrapeEnv} {s : String} {t : Nat}
    (h : contextBlockHandled env = .done (.ok s) t) : ScrapeOk env s := by
  unfold contextBlockHandled at h
  cases hc : contextBlock env with
  | hang => rw [hc] at h; cases h
  | done r tc =>
    rw [hc] at h
    cases r with
    | ok s0 =>
      simp only [Timed.done.injEq, Except.ok.injEq] at h
      exact h.1 ▸ contextBlock_ok hc
    | error e =>
      cases e with
      | pwTimeout m =>
        simp only [Timed.done.injEq, Except.ok.injEq] at h
        exact Or.inl (h.1 ▸ errorTagged_reqTimeoutMsg _)
      | exn m =>
        simp only [Timed.done.injEq, Except.ok.injEq] at h
        exact Or.inl (h.1 ▸ errorTagged_str m)

lemma afterInit_ok {env : ScrapeEnv} {s : String} {t : Nat}
    (h : afterInit env = .done (.ok s) t) : ScrapeOk env s := by
  unfold afterInit at h
  rcases hw : waitFor 15 env.launch with ⟨o, d⟩
  rw [hw] at h
  cases o with
  | ok u =>
    obtain ⟨t0, h⟩ := addT_done_inv h
    obtain ⟨tb, h⟩ := finallySwallow_done_inv h
    exact contextBlockHandled_ok h
  | timedOut =>
    obtain ⟨t0, h⟩ := addT_done_inv h
    obtain ⟨_, _, _, hpx, h⟩ := teBind_ok_inv h
    simp only [Timed.done.injEq, Except.ok.injEq] at h
    rw [← h.1]
    left
    unfold launchTimeoutMsg ErrorTagged
    decide
  | exc e =>
    obtain ⟨t0, h⟩ := addT_done_inv h
    obtain ⟨_, _, _, hpx, h⟩ := teBind_ok_inv h
    simp only [Timed.done.injEq, Except.ok.injEq] at h
    exact Or.inl (h.1 ▸ errorTagged_launchFailMsg _)

lemma scrape_web_internal_ok {env : ScrapeEnv} {s : String} {t : Nat}
    (h : scrape_web_internal env = .done (.ok s) t) : ScrapeOk env s := by
  unfold scrape_web_internal at h
  rcases hw : waitFor 10 env.pwInit with ⟨o, d⟩
  rw [hw] at h
  cases o with
  | ok u =>
    obtain ⟨t0, h⟩ := addT_done_inv h
    obtain ⟨tb, h⟩ := finallySwallow_done_inv h
    exact afterInit_ok h
  | timedOut =>
    simp only [Timed.done.injEq, Except.ok.injEq] at h
    rw [← h.1]
    left
    unfold initTimeoutMsg ErrorTagged
    decide
  | exc e =>
    simp only [Timed.done.injEq, Except.ok.injEq] at h
    exact Or.inl (h.1 ▸ errorTagged_initFailMsg _)

/-- C8: `scrape_web` is total at its boundary — for every environment it
completes with a plain string (the model's return type carries no
exception, mirroring the catch-all handlers in the source) — and that
string is either an in-band failure beginning with `"Error:"` or the
cleaned page text of at least 100 characters, so the caller can only
tell failure from content by inspecting the text. -/
theorem scrape_web_in_band (env : ScrapeEnv) :
    ∃ s t, scrape_web env = .done s t ∧
      (ErrorTagged s ∨ (s = pyClean (rawOf env) ∧ 100 ≤ s.length)) := by
  cases h : scrape_web_internal env with
  | hang =>
    refine ⟨scrapeTimeoutMsg (timeoutSeconds env), timeoutSeconds env,
      by simp [scrape_web, waitFor, h], Or.inl (errorTagged_scrapeTimeoutMsg _)⟩
  | done r d =>
    cases r with
    | ok s0 =>
      by_cases hd : d ≤ timeoutSeconds env
      · exact ⟨s0, d, by simp [scrape_web, waitFor, h, hd],
          scrape_web_internal_ok h⟩
      · exact ⟨scrapeTimeoutMsg (timeoutSeconds env), timeoutSeconds env,
          by simp [scrape_web, waitFor, h, hd],
          Or.inl (errorTagged_scrapeTimeoutMsg _)⟩
    | error e =>
      by_cases hd : d ≤ timeoutSeconds env
      · exact ⟨"Error: " ++ e.message, d,
          by simp [scrape_web, waitFor, h, hd],
          Or.inl (errorTagged_str _)⟩
      · exact ⟨scrapeTimeoutMsg (timeoutSeconds env), timeoutSeconds env,
          by simp [scrape_web, waitFor, h, hd],
          Or.inl (errorTagged_scrapeTimeoutMsg _)⟩

/-! ## Gateway fallback (C2) -/

/-- The timed-out outcomes of the fetch subsystem: engine start-up
timeout, browser-launch timeout, navigation timeout, an escaped
playwright timeout, or the overall budget expiry (the timeout parameter
is `min(SCRAPER_TIMEOUT, 30) ≤ 30`). -/
def IsTimedOutOutcome (s : String) : Prop :=
  s = initTimeoutMsg ∨ s = launchTimeoutMsg ∨
  ∃ t, t ≤ 30 ∧
    (s = navTimeoutMsg t ∨ s = reqTimeoutMsg t ∨ s = scrapeTimeoutMsg t)

/-- The blocked outcome of the fetch subsystem: a page that yielded
under 100 characters is reported as likely blocking automation. -/
def IsBlockedOutcome (s : String) : Prop :=
  ∃ n, n < 100 ∧ s = littleContentMsg n

set_option maxRecDepth 40000 in
lemma navTimeoutMsg_short : ∀ t < 31, (navTimeoutMsg t).length < 500 := by
  decide

set_option maxRecDepth 40000 in
lemma reqTimeoutMsg_short : ∀ t < 31, (reqTimeoutMsg t).length < 500 := by
  decide

set_option maxRecDepth 40000 in
lemma scrapeTimeoutMsg_short : ∀ t < 31, (scrapeTimeoutMsg t).length < 500 := by
  decide

set_option maxRecDepth 40000 in
lemma littleContentMsg_short : ∀ n < 100, (littleContentMsg n).length < 500 := by
  decide

/-- Every timed-out or blocked outcome is under the 500-character
fallback threshold. -/
lemma outcome_short {s : String}
    (h : IsTimedOutOutcome s ∨ IsBlockedOutcome s) : s.length < 500 := by
  rcases h with h | h
  · rcases h with h | h | ⟨t, ht, h | h | h⟩ <;> rw [h]
    · decide
    · decide
    · exact navTimeoutMsg_short t (by omega)
    · exact reqTimeoutMsg_short t (by omega)
    · exact scrapeTimeoutMsg_short t (by omega)
  · rcases h with ⟨n, hn, h⟩
    rw [h]
    exact littleContentMsg_short n hn

/-- C2: when a `web_research` dispatch has a usable, validated address
and the fetch comes back timed-out, blocked, or as content that is both
under the 500-character threshold and carries a block-indicator phrase,
the gateway re-dispatches a web search for `"Latest info from {url}"`
and returns exactly that search result (with the scrape and the search
as its only capability calls). -/
theorem web_research_fallback (env : AgentEnv) (current_intel : String)
    (args : Args) (conversation_id : Nat) (u : String)
    (hu : pyOrStr args.url args.link = some u) (hne : u ≠ "")
    (hv : (env.validateUrl (pyStrip u)).1 = true)
    (hr : IsTimedOutOutcome (env.scrape (pyStrip u) conversation_id) ∨
          IsBlockedOutcome (env.scrape (pyStrip u) conversation_id) ∨
          ((env.scrape (pyStrip u) conversation_id).length < 500 ∧
            blockMarkers.any (fun m =>
              pyIn m (pyLower (env.scrape (pyStrip u) conversation_id))) = true)) :
    execute_tool env current_intel "web_research" args conversation_id =
      (env.search ("Latest info from " ++ u),
       [Effect.toolInvoke "web_research" args,
        Effect.scrapeCall (pyStrip u) conversation_id,
        Effect.searchCall ("Latest info from " ++ u)]) := by
  have hcond : (blockMarkers.any (fun m =>
      pyIn m (pyLower (env.scrape (pyStrip u) conversation_id)))
      || decide ((env.scrape (pyStrip u) conversation_id).length < 500)) = true := by
    rcases hr with h | h | h
    · simp [outcome_short (Or.inl h)]
    · simp [outcome_short (Or.inr h)]
    · simp [h.2]
  have hv2 : ((env.validateUrl (pyStrip u)).1 = false) = False := by
    simp [hv]
  simp only [execute_tool, execBody, hu, if_neg hne, hv2, hcond, reduceIte]

/-! ## Gateway exception boundary (C7) -/

/-- C7: whenever a bound capability raises inside the gateway's `try`
body, `execute_tool` still returns a single normalized result — the
in-band `"Tool Failure: " ++ str(e)` string — and never lets the
exception propagate (its return type is a plain string paired with the
effects already performed). -/
theorem execute_tool_catches (env : AgentEnv) (current_intel tool : String)
    (args : Args) (conversation_id : Nat) (e : String) (fx : List Effect)
    (h : execBody env current_intel tool args conversation_id = (.error e, fx)) :
    execute_tool env current_intel tool args conversation_id =
      ("Tool Failure: " ++ e, Effect.toolInvoke tool args :: fx) := by
  unfold execute_tool
  rw [h]

/-- A concrete environment in which every capability behaves and the
scrape of any address reports the overall-budget timeout. -/
def fallbackEnv : AgentEnv where
  scrape := fun _ _ => scrapeTimeoutMsg 30
  search := fun q => "SEARCH RESULT: " ++ q
  llmGenerate := fun _ => ""
  validateUrl := fun _ => (true, "")
  notionCreate := fun _ _ => .ok true
  emailSend := fun _ _ _ => .ok true
  ingest := fun _ _ _ => .ok ()
  jsonLoads := fun _ => none
  hasDb := true
  emailUser := "agent@example.com"
  todayDate := "2026-10-12"
  dateStamp := "20261012"

/-- Witness for C2: on a concrete timed-out fetch, the gateway returns
the search result for the derived query. -/
theorem web_research_fallback_witness :
    execute_tool fallbackEnv "" "web_research"
        { url := some "https://example.com" } 7 =
      (fallbackEnv.search ("Latest info from " ++ "https://example.com"),
       [Effect.toolInvoke "web_research" { url := some "https://example.com" },
        Effect.scrapeCall (pyStrip "https://example.com") 7,
        Effect.searchCall ("Latest info from " ++ "https://example.com")]) :=
  web_research_fallback fallbackEnv "" _ 7 "https://example.com" rfl
    (by simp) rfl
    (Or.inl (Or.inr (Or.inr ⟨30, by omega, Or.inr (Or.inr rfl)⟩)))

/-- A healthy report body used by the concrete witnesses. -/
def goodReport : String :=
  "This is a sufficiently long market intelligence report body."

/-- `fallbackEnv` with a Notion capability that raises. -/
def raisingEnv : AgentEnv :=
  { fallbackEnv with notionCreate := fun _ _ => .error "notion down" }

/-- Witness for C7: a raising Notion capability is converted into the
in-band `Tool Failure` result. -/
theorem execute_tool_catches_witness :
    execute_tool raisingEnv "pool" "save_to_notion"
        { content := some goodReport } 3 =
      ("Tool Failure: " ++ "notion down",
       Effect.toolInvoke "save_to_notion" { content := some goodReport } ::
         [Effect.notionCall "Report 2026-10-12" goodReport]) :=
  execute_tool_catches raisingEnv "pool" "save_to_notion"
    { content := some goodReport } 3 "notion down"
    [Effect.notionCall "Report 2026-10-12" goodReport] (by decide)

/-! ## Orchestrator-level properties -/

/-- A synthesis invocation: an LLM call whose prompt is shaped by
`REPORT_SYNTHESIS_PROMPT`. -/
def isSynthCallFx (e : Effect) : Bool :=
  match e with
  | .llmCall p => synthPromptPre.data.isPrefixOf p.data
  | _ => false

/-- A gateway dispatch of a disseminate-class tool. -/
def isDissemInvokeFx (e : Effect) : Bool :=
  match e with
  | .toolInvoke t _ => t == "save_to_notion" || t == "dispatch_email"
  | _ => false

/-- The content handed to an external delivery capability (Notion page
body or e-mail body), if `e` is such a call. -/
def deliveredContent : Effect → Option String
  | .notionCall _ c => some c
  | .emailCall _ _ c => some c
  | _ => none

lemma execBody_fx (env : AgentEnv) (ci tool : String) (args : Args)
    (cid : Nat) :
    ∀ e ∈ (execBody env ci tool args cid).2,
      (∀ p, e ≠ Effect.llmCall p) ∧
      (∀ t2 a2, e ≠ Effect.toolInvoke t2 a2) ∧
      (∀ ttl c, e = Effect.notionCall ttl c →
        c = integrity_check ci (args.content.getD "")) ∧
      (∀ r sb c, e = Effect.emailCall r sb c →
        c = integrity_check ci (args.content.getD "")) := by
  unfold execBody
  dsimp only []
  repeat' split
  all_goals intro e he
  all_goals simp_all
  all_goals rcases he with rfl | rfl <;> simp_all

lemma execBody_web_fx (env : AgentEnv) (ci : String) (args : Args)
    (cid : Nat) (tool : String)
    (h : tool = "web_research" ∨ tool = "web_search") :
    ∀ e ∈ (execBody env ci tool args cid).2,
      (∃ u2 c2, e = Effect.scrapeCall u2 c2) ∨
      (∃ q, e = Effect.searchCall q) := by
  rcases h with h | h <;> subst h <;> unfold execBody <;>
    dsimp only [] <;> simp only [reduceIte] <;> repeat' split
  all_goals intro e he
  all_goals simp_all
  all_goals rcases he with rfl | rfl <;> simp_all

lemma gatherLoop_fx (env : AgentEnv) (cid : Nat) :
    ∀ steps intel, (∀ s ∈ steps, isGatherStep s = true) →
    ∀ e ∈ (gatherLoop env cid steps intel).2.2,
      isSynthCallFx e = false ∧ isDissemInvokeFx e = false ∧
      (∀ ttl c, e ≠ Effect.notionCall ttl c) ∧
      (∀ r sb c, e ≠ Effect.emailCall r sb c) := by
  intro steps
  induction steps with
  | nil => intro intel hps e he; simp [gatherLoop] at he
  | cons s rest ih =>
    intro intel hps e he
    have hs : isGatherStep s = true := hps s (by simp)
    have ht : s.tool = some "web_research" ∨ s.tool = some "web_search" := by
      unfold isGatherStep at hs
      simp only [Bool.or_eq_true, beq_iff_eq] at hs
      exact hs
    have htool : s.tool.getD "" = "web_research" ∨
        s.tool.getD "" = "web_search" := by
      rcases ht with h | h <;> rw [h] <;> simp
    have hrest : ∀ s2 ∈ rest, isGatherStep s2 = true :=
      fun s2 h2 => hps s2 (by simp [h2])
    simp only [gatherLoop, execute_tool, List.mem_append, List.mem_cons] at he
    rcases he with (rfl | he) | he
    · refine ⟨rfl, ?_, by simp, by simp⟩
      unfold isDissemInvokeFx
      rcases htool with h | h <;> simp [h]
    · rcases execBody_web_fx env intel s.args cid (s.tool.getD "") htool e he
        with ⟨u2, c2, rfl⟩ | ⟨q, rfl⟩ <;>
        exact ⟨rfl, rfl, by simp, by simp⟩
    · exact ih _ hrest e he

lemma dissemLoop_fx (env : AgentEnv) (report : String) (cid : Nat) :
    ∀ steps, ∀ e ∈ (dissemLoop env report cid steps).2,
      isSynthCallFx e = false ∧
      (∀ t2 a2, e = Effect.toolInvoke t2 a2 → a2.content = some report) ∧
      (∀ ttl c, e = Effect.notionCall ttl c →
        c = integrity_check report report) ∧
      (∀ r2 sb c, e = Effect.emailCall r2 sb c →
        c = integrity_check report report) := by
  intro steps
  induction steps with
  | nil => intro e he; simp [dissemLoop] at he
  | cons s rest ih =>
    intro e he
    simp only [dissemLoop, execute_tool, List.mem_append, List.mem_cons] at he
    rcases he with (rfl | he) | he
    · exact ⟨rfl, fun t2 a2 h => by injection h with h1 h2; rw [← h2],
        by simp, by simp⟩
    · have := execBody_fx env report (s.tool.getD "")
        { s.args with content := some report } cid e he
      refine ⟨?_, fun t2 a2 h => absurd h (this.2.1 t2 a2), ?_, ?_⟩
      · rcases e with _ | _ | _ | _ | _ | p | _ | _ <;> simp [isSynthCallFx]
        exact absurd rfl (this.1 p)
      · intro ttl c h
        simpa using this.2.2.1 ttl c h
      · intro r2 sb c h
        simpa using this.2.2.2 r2 sb c h
    · exact ih e he

lemma persist_fx (env : AgentEnv) (report : String) (cid : Nat) :
    ∀ e ∈ persist_to_memory env report cid,
      isSynthCallFx e = false ∧ isDissemInvokeFx e = false ∧
      (∀ t2 a2, e ≠ Effect.toolInvoke t2 a2) ∧
      (∀ ttl c, e ≠ Effect.notionCall ttl c) ∧
      (∀ r sb c, e ≠ Effect.emailCall r sb c) := by
  intro e he
  unfold persist_to_memory at he
  simp only [List.mem_cons] at he
  rcases he with rfl | he
  · exact ⟨rfl, rfl, by simp, by simp, by simp⟩
  · split at he
    · simp at he
    · split at he
      · simp only [List.mem_singleton] at he
        subst he
        exact ⟨rfl, rfl, by simp, by simp, by simp⟩
      · simp at he

lemma isSynthCallFx_synthPrompt (pool : String) :
    isSynthCallFx (Effect.llmCall (synthPrompt pool)) = true := by
  unfold isSynthCallFx synthPrompt
  rw [ List.isPrefixOf_iff_prefix, String.data_append, String.data_append,
    List.append_assoc]
  exact List.prefix_append _ _

/-- C5: the report of a mission run is produced by exactly one
synthesis-shaped LLM call, that call precedes every disseminate-class
gateway dispatch in the run's effect sequence, and every
disseminate-class dispatch carries exactly that report as its `content`
argument. -/
theorem single_synthesis_for_dissemination (env : AgentEnv)
    (plan : List Step) (mission_id : Nat) :
    ∃ pool pre post,
      (runPlan env plan mission_id).1.report =
        env.llmGenerate (synthPrompt pool) ∧
      (runPlan env plan mission_id).2 =
        pre ++ Effect.llmCall (synthPrompt pool) :: post ∧
      (runPlan env plan mission_id).2.countP isSynthCallFx = 1 ∧
      pre.countP isDissemInvokeFx = 0 ∧
      (∀ t2 a2, Effect.toolInvoke t2 a2 ∈ (runPlan env plan mission_id).2 →
        isDissemInvokeFx (Effect.toolInvoke t2 a2) = true →
        a2.content = some (runPlan env plan mission_id).1.report) := by
  have hgfilter : ∀ s ∈ plan.filter isGatherStep, isGatherStep s = true :=
    fun s h => (List.mem_filter.mp h).2
  refine ⟨(gatherLoop env mission_id (plan.filter isGatherStep) "").1,
    (gatherLoop env mission_id (plan.filter isGatherStep) "").2.2,
    persist_to_memory env
      (env.llmGenerate (synthPrompt
        (gatherLoop env mission_id (plan.filter isGatherStep) "").1))
      mission_id ++
      (dissemLoop env
        (env.llmGenerate (synthPrompt
          (gatherLoop env mission_id (plan.filter isGatherStep) "").1))
        mission_id (plan.filter isDissemStep)).2,
    rfl, rfl, ?_, ?_, ?_⟩
  · rw [show (runPlan env plan mission_id).2 =
        (gatherLoop env mission_id (plan.filter isGatherStep) "").2.2 ++
          Effect.llmCall (synthPrompt
            (gatherLoop env mission_id (plan.filter isGatherStep) "").1) ::
          (persist_to_memory env
            (env.llmGenerate (synthPrompt
              (gatherLoop env mission_id (plan.filter isGatherStep) "").1))
            mission_id ++
          (dissemLoop env
            (env.llmGenerate (synthPrompt
              (gatherLoop env mission_id (plan.filter isGatherStep) "").1))
            mission_id (plan.filter isDissemStep)).2) from rfl]
    rw [List.countP_append, List.countP_cons_of_pos _ _
      (isSynthCallFx_synthPrompt _), List.countP_append]
    have h1 : (gatherLoop env mission_id (plan.filter isGatherStep)
        "").2.2.countP isSynthCallFx = 0 :=
      List.countP_eq_zero.mpr fun e he => by
        simp [(gatherLoop_fx env mission_id _ "" hgfilter e he).1]
    have h2 : (persist_to_memory env
        (env.llmGenerate (synthPrompt
          (gatherLoop env mission_id (plan.filter isGatherStep) "").1))
        mission_id).countP isSynthCallFx = 0 :=
      List.countP_eq_zero.mpr fun e he => by
        simp [(persist_fx env _ mission_id e he).1]
    have h3 : (dissemLoop env
        (env.llmGenerate (synthPrompt
          (gatherLoop env mission_id (plan.filter isGatherStep) "").1))
        mission_id (plan.filter isDissemStep)).2.countP isSynthCallFx = 0 :=
      List.countP_eq_zero.mpr fun e he => by
        simp [(dissemLoop_fx env _ mission_id _ e he).1]
    omega
  · exact List.countP_eq_zero.mpr fun e he => by
      simp [(gatherLoop_fx env mission_id _ "" hgfilter e he).2.1]
  · intro t2 a2 hmem hflag
    have hsplit : Effect.toolInvoke t2 a2 ∈
        (gatherLoop env mission_id (plan.filter isGatherStep) "").2.2 ∨
        Effect.toolInvoke t2 a2 = Effect.llmCall (synthPrompt
          (gatherLoop env mission_id (plan.filter isGatherStep) "").1) ∨
        Effect.toolInvoke t2 a2 ∈ persist_to_memory env
          (env.llmGenerate (synthPrompt
            (gatherLoop env mission_id (plan.filter isGatherStep) "").1))
          mission_id ∨
        Effect.toolInvoke t2 a2 ∈ (dissemLoop env
          (env.llmGenerate (synthPrompt
            (gatherLoop env mission_id (plan.filter isGatherStep) "").1))
          mission_id (plan.filter isDissemStep)).2 := by
      have : (runPlan env plan mission_id).2 =
          (gatherLoop env mission_id (plan.filter isGatherStep) "").2.2 ++
            Effect.llmCall (synthPrompt
              (gatherLoop env mission_id (plan.filter isGatherStep) "").1) ::
            (persist_to_memory env
              (env.llmGenerate (synthPrompt
                (gatherLoop env mission_id (plan.filter isGatherStep) "").1))
              mission_id ++
            (dissemLoop env
              (env.llmGenerate (synthPrompt
                (gatherLoop env mission_id (plan.filter isGatherStep) "").1))
              mission_id (plan.filter isDissemStep)).2) := rfl
      rw [this] at hmem
      simpa [List.mem_append, List.mem_cons, or_assoc] using hmem
    rcases hsplit with h | h | h | h
    · exact absurd hflag (by
        simp [(gatherLoop_fx env mission_id _ "" hgfilter _ h).2.1])
    · cases h
    · exact absurd h (by
        intro hmem2
        exact (persist_fx env _ mission_id _ hmem2).2.2.1 t2 a2 rfl)
    · exact (dissemLoop_fx env _ mission_id _ _ h).2.1 t2 a2 rfl

lemma integrity_check_self (r : String) :
    integrity_check r r = if r = "" then noDataSentinel else r := by
  unfold integrity_check
  split
  · rfl
  · rename_i hcond
    have h : r ≠ "" := fun h0 => hcond (by simp [h0])
    rw [if_neg h]

lemma deliveredContent_none_of_ne (e : Effect)
    (h1 : ∀ ttl c, e ≠ Effect.notionCall ttl c)
    (h2 : ∀ r s c, e ≠ Effect.emailCall r s c) :
    deliveredContent e = none := by
  cases e with
  | notionCall ttl c => exact absurd rfl (h1 ttl c)
  | emailCall r s c => exact absurd rfl (h2 r s c)
  | toolInvoke t a => rfl
  | scrapeCall u c => rfl
  | searchCall q => rfl
  | llmCall p => rfl
  | ingestCall t c i => rfl
  | dbInsert a b c d => rfl

/-- C9: during dissemination the integrity gate's fallback is the report
itself, so the content delivered to the archive and notify capabilities
is the report for every non-empty report — however short, and whatever
markers it contains — and the sentinel only when the report is empty. -/
theorem dissemination_delivers_report (env : AgentEnv) (plan : List Step)
    (mission_id : Nat) (e : Effect) (c : String)
    (he : e ∈ (runPlan env plan mission_id).2)
    (hc : deliveredContent e = some c) :
    c = if (runPlan env plan mission_id).1.report = "" then noDataSentinel
        else (runPlan env plan mission_id).1.report := by
  have hgfilter : ∀ s ∈ plan.filter isGatherStep, isGatherStep s = true :=
    fun s h => (List.mem_filter.mp h).2
  have hdec : (runPlan env plan mission_id).2 =
      (gatherLoop env mission_id (plan.filter isGatherStep) "").2.2 ++
        Effect.llmCall (synthPrompt
          (gatherLoop env mission_id (plan.filter isGatherStep) "").1) ::
        (persist_to_memory env
          (env.llmGenerate (synthPrompt
            (gatherLoop env mission_id (plan.filter isGatherStep) "").1))
          mission_id ++
        (dissemLoop env
          (env.llmGenerate (synthPrompt
            (gatherLoop env mission_id (plan.filter isGatherStep) "").1))
          mission_id (plan.filter isDissemStep)).2) := rfl
  rw [hdec] at he
  rcases (by simpa [List.mem_append, List.mem_cons, or_assoc] using he :
      e ∈ (gatherLoop env mission_id (plan.filter isGatherStep) "").2.2 ∨
      e = Effect.llmCall (synthPrompt
        (gatherLoop env mission_id (plan.filter isGatherStep) "").1) ∨
      e ∈ persist_to_memory env
        (env.llmGenerate (synthPrompt
          (gatherLoop env mission_id (plan.filter isGatherStep) "").1))
        mission_id ∨
      e ∈ (dissemLoop env
        (env.llmGenerate (synthPrompt
          (gatherLoop env mission_id (plan.filter isGatherStep) "").1))
        mission_id (plan.filter isDissemStep)).2)
    with h | h | h | h
  · have hg := gatherLoop_fx env mission_id _ "" hgfilter e h
    rw [deliveredContent_none_of_ne e hg.2.2.1 hg.2.2.2] at hc
    cases hc
  · subst h
    cases hc
  · have hp := persist_fx env _ mission_id e h
    rw [deliveredContent_none_of_ne e hp.2.2.2.1 hp.2.2.2.2] at hc
    cases hc
  · have hd := dissemLoop_fx env _ mission_id _ e h
    cases e with
    | notionCall ttl cc =>
      have : cc = c := by simpa [deliveredContent] using hc
      subst this
      rw [hd.2.2.1 ttl cc rfl]
      exact integrity_check_self _
    | emailCall r2 sb cc =>
      have : cc = c := by simpa [deliveredContent] using hc
      subst this
      rw [hd.2.2.2 r2 sb cc rfl]
      exact integrity_check_self _
    | toolInvoke t a => cases hc
    | scrapeCall u ci => cases hc
    | searchCall q => cases hc
    | llmCall p => cases hc
    | ingestCall t ct i => cases hc
    | dbInsert a b ct d => cases hc

/-- C10: a plan step whose tool name is none of the four recognized
names is skipped silently — the whole mission run (record, trace and
effect sequence alike) equals the run of the plan with that step
removed. -/
theorem unknown_tool_skipped (env : AgentEnv) (pre post : List Step)
    (s : Step) (mission_id : Nat)
    (h : ∀ n ∈ ["web_research", "web_search", "save_to_notion",
      "dispatch_email"], s.tool ≠ some n) :
    runPlan env (pre ++ s :: post) mission_id =
      runPlan env (pre ++ post) mission_id := by
  have h1 := h "web_research" (by simp)
  have h2 := h "web_search" (by simp)
  have h3 := h "save_to_notion" (by simp)
  have h4 := h "dispatch_email" (by simp)
  have hg : isGatherStep s = false := by
    unfold isGatherStep
    simp only [Bool.or_eq_false_iff, beq_eq_false_iff_ne]
    exact ⟨h1, h2⟩
  have hd : isDissemStep s = false := by
    unfold isDissemStep
    simp only [Bool.or_eq_false_iff, beq_eq_false_iff_ne]
    exact ⟨h3, h4⟩
  unfold runPlan
  simp [List.filter_append, List.filter_cons, hg, hd]

/-- A plan step with an unrecognized tool name. -/
def unknownStep : Step := { tool := some "transcribe_audio" }

/-- Witness for C10: a concrete one-step plan with an unknown tool runs
exactly like the empty plan. -/
theorem unknown_tool_skipped_witness :
    runPlan fallbackEnv [unknownStep] 1 = runPlan fallbackEnv [] 1 :=
  unknown_tool_skipped fallbackEnv [] [] unknownStep 1 (by decide)

/-- Witness for C5: the decomposition at a concrete environment and a
concrete one-step dissemination plan. -/
theorem single_synthesis_for_dissemination_witness :
    ∃ pool pre post,
      (runPlan fallbackEnv [{ tool := some "save_to_notion" }] 1).1.report =
        fallbackEnv.llmGenerate (synthPrompt pool) ∧
      (runPlan fallbackEnv [{ tool := some "save_to_notion" }] 1).2 =
        pre ++ Effect.llmCall (synthPrompt pool) :: post ∧
      (runPlan fallbackEnv [{ tool := some "save_to_notion" }]
          1).2.countP isSynthCallFx = 1 ∧
      pre.countP isDissemInvokeFx = 0 ∧
      (∀ t2 a2, Effect.toolInvoke t2 a2 ∈
          (runPlan fallbackEnv [{ tool := some "save_to_notion" }] 1).2 →
        isDissemInvokeFx (Effect.toolInvoke t2 a2) = true →
        a2.content = some
          (runPlan fallbackEnv [{ tool := some "save_to_notion" }]
            1).1.report) :=
  single_synthesis_for_dissemination fallbackEnv
    [{ tool := some "save_to_notion" }] 1

/-- `fallbackEnv` with an LLM that yields a synthesized report. -/
def reportEnv : AgentEnv :=
  { fallbackEnv with llmGenerate := fun _ => goodReport }

/-- Witness for C9: with a concrete one-step dissemination plan, the
content delivered to Notion is the (non-empty) report itself. -/
theorem dissemination_delivers_report_witness :
    goodReport =
      if (runPlan reportEnv [{ tool := some "save_to_notion" }]
          1).1.report = "" then noDataSentinel
      else (runPlan reportEnv [{ tool := some "save_to_notion" }]
        1).1.report :=
  dissemination_delivers_report reportEnv [{ tool := some "save_to_notion" }]
    1 (Effect.notionCall "Report 2026-10-12" goodReport) goodReport
    (by decide) rfl

/-! ## Plan-parse failure behaviour (C3) and persistence coupling (C6) -/

/-- The planning output contains no parseable array-shaped substring:
either the regex finds no bracketed span, or the span it finds fails to
parse as JSON. -/
def PlanParseFailed (env : AgentEnv) (user_input : String) : Prop :=
  ∀ s, pyFindArray (env.llmGenerate (planPrompt user_input)) = some s →
    env.jsonLoads s = none

/-- `fallbackEnv` with an LLM that never yields an array-shaped plan. -/
def noPlanEnv : AgentEnv :=
  { fallbackEnv with llmGenerate := fun _ => "I cannot produce a plan right now." }

/-- Counterexample to C3: on a concrete planning output with no
array-shaped substring the mission does *not* fail — its status is
`"complete"` (the trace is indeed empty) and a synthesis call is still
performed. -/
theorem unparseable_plan_counterexample :
    (process_mission noPlanEnv "H100 pricing" (some 7)).1.status =
      "complete" ∧
    (process_mission noPlanEnv "H100 pricing" (some 7)).1.trace = [] ∧
    (process_mission noPlanEnv "H100 pricing"
      (some 7)).2.countP isSynthCallFx = 1 := by
  refine ⟨rfl, rfl, ?_⟩
  set_option maxRecDepth 1000000 in decide

/-- C3 as amended: when no plan can be parsed the plan is empty, so no
gather or disseminate step runs and the trace is empty; but the mission
still synthesizes a report from the empty intelligence pool, still
attempts persistence of that report, and returns status `"complete"`
rather than a failure. -/
theorem unparseable_plan_amended (env : AgentEnv) (user_input : String)
    (conversation_id : Option Nat) (h : PlanParseFailed env user_input) :
    (process_mission env user_input conversation_id).1.status =
      "complete" ∧
    (process_mission env user_input conversation_id).1.trace = [] ∧
    (process_mission env user_input conversation_id).1.report =
      env.llmGenerate (synthPrompt "") ∧
    (process_mission env user_input conversation_id).2 =
      Effect.llmCall (planPrompt user_input) ::
        Effect.llmCall (synthPrompt "") ::
          persist_to_memory env (env.llmGenerate (synthPrompt ""))
            (missionIdOf conversation_id) := by
  have hgp : generate_plan env user_input =
      ([], [Effect.llmCall (planPrompt user_input)]) := by
    unfold generate_plan
    rcases hf : pyFindArray (env.llmGenerate (planPrompt user_input))
      with _ | s
    · simp [hf]
    · simp [hf, h s hf]
  unfold process_mission
  rw [hgp]
  unfold runPlan
  simp [gatherLoop, dissemLoop]

/-- Witness for the amended C3, at the concrete no-plan environment. -/
theorem unparseable_plan_amended_witness :
    (process_mission noPlanEnv "H100 pricing" (some 3)).1.status =
      "complete" ∧
    (process_mission noPlanEnv "H100 pricing" (some 3)).1.trace = [] ∧
    (process_mission noPlanEnv "H100 pricing" (some 3)).1.report =
      noPlanEnv.llmGenerate (synthPrompt "") ∧
    (process_mission noPlanEnv "H100 pricing" (some 3)).2 =
      Effect.llmCall (planPrompt "H100 pricing") ::
        Effect.llmCall (synthPrompt "") ::
          persist_to_memory noPlanEnv (noPlanEnv.llmGenerate (synthPrompt ""))
            (missionIdOf (some 3)) :=
  unparseable_plan_amended noPlanEnv "H100 pricing" (some 3)
    (fun s hs => by
      rw [show pyFindArray (noPlanEnv.llmGenerate
        (planPrompt "H100 pricing")) = none from rfl] at hs
      cases hs)

/-- `fallbackEnv` with a document-store ingestion that raises. -/
def ingestFailEnv : AgentEnv :=
  { fallbackEnv with ingest := fun _ _ _ => .error "chroma down" }

/-- Counterexample to C6: with a session bound (`hasDb = true`), a
failing document-store ingestion leaves the relational audit write
unattempted — the two writes are not independent. -/
theorem persistence_counterexample :
    ingestFailEnv.hasDb = true ∧
    persist_to_memory ingestFailEnv goodReport 5 =
      [Effect.ingestCall "Report_5_20261012" goodReport 5] :=
  ⟨rfl, rfl⟩

/-- `Except` success test, as a boolean. -/
def exceptOk {ε α : Type} : Except ε α → Bool
  | .ok _ => true
  | .error _ => false

/-- C6 as amended: the two persistence writes share one error scope and
run in order — the document-store ingestion is always attempted first,
and the relational audit row is attempted exactly when the ingestion
succeeded and a session is bound; an audit failure therefore cannot
undo or prevent the ingestion, but an ingestion failure does prevent
the audit write. -/
theorem persistence_order_amended (env : AgentEnv) (report : String)
    (conversation_id : Nat) :
    ∃ rest, persist_to_memory env report conversation_id =
      Effect.ingestCall
        ("Report_" ++ toString conversation_id ++ "_" ++ env.dateStamp)
        report conversation_id :: rest ∧
      (Effect.dbInsert conversation_id "Market Intelligence Mission" report
          "COMPLETED" ∈ rest ↔
        (exceptOk (env.ingest
            ("Report_" ++ toString conversation_id ++ "_" ++ env.dateStamp)
            report conversation_id) = true ∧ env.hasDb = true)) := by
  unfold persist_to_memory
  rcases hi : env.ingest
      ("Report_" ++ toString conversation_id ++ "_" ++ env.dateStamp)
      report conversation_id with e | u
  · exact ⟨[], by simp [hi], by simp [exceptOk, hi]⟩
  · cases hdb : env.hasDb
    · exact ⟨[], by simp [hi, hdb], by simp [exceptOk, hi, hdb]⟩
    · exact ⟨[Effect.dbInsert conversation_id "Market Intelligence Mission"
        report "COMPLETED"], by simp [hi, hdb], by simp [exceptOk, hi, hdb]⟩

/-- Witness for the amended C6, at the concrete failing-ingestion
environment. -/
theorem persistence_order_amended_witness :
    ∃ rest, persist_to_memory ingestFailEnv goodReport 5 =
      Effect.ingestCall
        ("Report_" ++ toString 5 ++ "_" ++ ingestFailEnv.dateStamp)
        goodReport 5 :: rest ∧
      (Effect.dbInsert 5 "Market Intelligence Mission" goodReport
          "COMPLETED" ∈ rest ↔
        (exceptOk (ingestFailEnv.ingest
            ("Report_" ++ toString 5 ++ "_" ++ ingestFailEnv.dateStamp)
            goodReport 5) = true ∧ ingestFailEnv.hasDb = true)) :=
  persistence_order_amended ingestFailEnv goodReport 5
